import Mathlib

/-!
Verification of the image-generation pipeline of the Essayage virtual
try-on application.  The definitions below are a shallow embedding of
the TypeScript sources:

* `src/services/geminiService.ts` — data-URL codec (`dataUrlToParts`),
  response classifier (`handleApiResponse`) and the three generation
  operations;
* `src/components/Canvas.tsx` — crop transform (`getCroppedImgDataUrl`)
  and pose navigation (`handlePreviousPose` / `handleNextPose`);
* `src/lib/utils.ts` — error-message normalizer
  (`getFriendlyErrorMessage`).

Strings are modelled as `List Char`; JavaScript built-ins used by the
source (`String.prototype.split`, regular-expression matching for the
single pattern the code uses, `Array.prototype.indexOf`, `JSON.parse`,
`String.prototype.trim`, `includes`) are modelled by explicit Lean
functions that reproduce their observable behaviour on the inputs the
code feeds them.
-/

namespace Essayage

/-! ### JavaScript string primitives -/

/-- JavaScript `s.split(sep)` for a one-character separator: the list of
(possibly empty) segments between occurrences of `sep`.
`"".split(sep) = [""]`. -/
def jsSplit (sep : Char) : List Char → List (List Char)
  | [] => [[]]
  | c :: rest =>
    if c = sep then [] :: jsSplit sep rest
    else
      match jsSplit sep rest with
      | [] => [[c]]
      | g :: gs => (c :: g) :: gs

/-- Whitespace recognised by JavaScript `String.prototype.trim` (the
characters that occur in practice). -/
def isJsWhitespace (c : Char) : Bool :=
  c = ' ' || c = '\t' || c = '\n' || c = '\r'

/-- JavaScript `s.trim()`: strip leading and trailing whitespace. -/
def jsTrim (s : List Char) : List Char :=
  ((s.dropWhile isJsWhitespace).reverse.dropWhile isJsWhitespace).reverse

/-- First occurrence of the (nonempty) separator list `sep` inside `s`:
returns the segment before it and the remainder after it. -/
def findSub (sep : List Char) : List Char → Option (List Char × List Char)
  | [] => none
  | c :: rest =>
    if sep.isPrefixOf (c :: rest) then some ([], (c :: rest).drop sep.length)
    else
      match findSub sep rest with
      | some (pre, post) => some (c :: pre, post)
      | none => none

/-- JavaScript `s.includes(sub)` for a nonempty `sub`. -/
def containsSub (s sub : List Char) : Bool :=
  (findSub sub s).isSome

/-- Fuelled worker for `splitOnSub`. -/
def splitOnSubAux : Nat → List Char → List Char → List (List Char)
  | 0, _, s => [s]
  | Nat.succ n, sep, s =>
    match findSub sep s with
    | none => [s]
    | some (pre, post) => pre :: splitOnSubAux n sep post

/-- JavaScript `s.split(sep)` for a multi-character separator. -/
def splitOnSub (sep s : List Char) : List (List Char) :=
  splitOnSubAux (s.length + 1) sep s

/-! ### The regular-expression match `/:(.*?);/`

`dataUrlToParts` runs `header.match(/:(.*?);/)` and reads capture
group 1.  The JavaScript engine tries start positions left to right; at
a `:` it lazily extends the capture until a `;`, failing if a newline
(which `.` cannot match) or the end of the string intervenes, in which
case the search resumes at later positions. -/

/-- Extend the capture after a `:` until the next `;`; fail on a newline
or the end of the string. -/
def grabUntilSemi : List Char → Option (List Char)
  | [] => none
  | c :: rest =>
    if c = ';' then some []
    else if c = '\n' then none
    else (grabUntilSemi rest).map (c :: ·)

/-- Capture group 1 of the first match of `/:(.*?);/` in `s`, if any. -/
def findMime : List Char → Option (List Char)
  | [] => none
  | c :: rest =>
    if c = ':' then
      match grabUntilSemi rest with
      | some t => some t
      | none => findMime rest
    else findMime rest

/-! ### Data-URL codec (`src/services/geminiService.ts`, `dataUrlToParts`) -/

/-- `dataUrlToParts`: split on `,`; fail (throw `"Invalid data URL"`)
when fewer than two segments result; match `/:(.*?);/` on the first
segment and fail (throw `"Could not parse MIME type from data URL"`)
when there is no match or the capture is empty (the source tests
`!mimeMatch || !mimeMatch[1]`); otherwise return the capture as
`mimeType` and the second segment as `data`. -/
def dataUrlToParts (s : List Char) : Option (List Char × List Char) :=
  match jsSplit ',' s with
  | a0 :: a1 :: _ =>
    match findMime a0 with
    | none => none
    | some t => if t = [] then none else some (t, a1)
  | _ => none

/-- The data-URL template `` `data:${mimeType};base64,${data}` `` used at
`handleApiResponse` (and, read backwards, the shape `dataUrlToParts`
decodes). -/
def encodeDataUrl (mimeType data : List Char) : List Char :=
  "data:".toList ++ mimeType ++ ";base64,".toList ++ data

/-! ### Generation responses (`@google/genai` response shape) -/

/-- `inlineData`: an inline image payload of a response part. -/
structure InlineData where
  mimeType : List Char
  data : List Char
deriving DecidableEq, Repr

/-- A response part: it either carries `inlineData` or it does not (text
parts and the like). -/
structure RespPart where
  inlineData : Option InlineData
deriving DecidableEq, Repr

/-- A candidate's `content`, with its optional list of parts. -/
structure RespContent where
  parts : Option (List RespPart)
deriving DecidableEq, Repr

/-- A response candidate. -/
structure Candidate where
  content : Option RespContent
  finishReason : Option (List Char)
deriving DecidableEq, Repr

/-- `promptFeedback` of a response. -/
structure PromptFeedback where
  blockReason : Option (List Char)
  blockReasonMessage : Option (List Char)
deriving DecidableEq, Repr

/-- A `GenerateContentResponse` as consumed by `handleApiResponse`. -/
structure GenResponse where
  promptFeedback : Option PromptFeedback
  candidates : Option (List Candidate)
  text : Option (List Char)
deriving DecidableEq, Repr

/-- Outcome of `handleApiResponse`: the returned data URL, or one of its
three distinct `throw` sites with the data interpolated into the thrown
message. -/
inductive GenerationResult where
  | Success (dataUrl : List Char)
  | Blocked (reason : List Char) (message : List Char)
  | AbnormalStop (reason : List Char)
  | NoImage (text : Option (List Char))
deriving DecidableEq, Repr

/-- The test `response.promptFeedback?.blockReason` together with the
data read when it is truthy: the block reason (truthy means present and
nonempty) and `blockReasonMessage || ''`. -/
def blockInfo (r : GenResponse) : Option (List Char × List Char) :=
  match r.promptFeedback with
  | none => none
  | some pf =>
    match pf.blockReason with
    | none => none
    | some br =>
      if br = [] then none else some (br, pf.blockReasonMessage.getD [])

/-- `candidate.content?.parts?.find(part => part.inlineData)`: the first
part of the list carrying inline data. -/
def firstInlineInParts : List RespPart → Option InlineData
  | [] => none
  | p :: rest =>
    match p.inlineData with
    | some d => some d
    | none => firstInlineInParts rest

/-- The loop `for (const candidate of response.candidates ?? [])`:
the first inline image encountered scanning candidates in order and,
within each candidate, its parts in order. -/
def firstInlineImage : List Candidate → Option InlineData
  | [] => none
  | c :: rest =>
    match firstInlineInParts ((c.content.bind RespContent.parts).getD []) with
    | some d => some d
    | none => firstInlineImage rest

/-- `response.text?.trim()` filtered by truthiness: the trimmed text
when it is nonempty, as interpolated into the no-image message. -/
def trimmedText (r : GenResponse) : Option (List Char) :=
  match r.text with
  | none => none
  | some t => let tt := jsTrim t; if tt = [] then none else some tt

/-- `handleApiResponse` (`src/services/geminiService.ts:32-56`):
1. a truthy `promptFeedback?.blockReason` throws the blocked message;
2. otherwise the first inline image part in candidate/part order is
   returned as `` `data:${mimeType};base64,${data}` ``;
3. otherwise a truthy first-candidate `finishReason` other than
   `"STOP"` throws the abnormal-stop message;
4. otherwise the no-image message is thrown, with the trimmed response
   text when truthy. -/
def handleApiResponse (r : GenResponse) : GenerationResult :=
  match blockInfo r with
  | some (br, msg) => .Blocked br msg
  | none =>
    match firstInlineImage (r.candidates.getD []) with
    | some d => .Success (encodeDataUrl d.mimeType d.data)
    | none =>
      let fr := ((r.candidates.getD []).head?.bind Candidate.finishReason).getD []
      if fr ≠ [] ∧ fr ≠ "STOP".toList then .AbnormalStop fr
      else .NoImage (trimmedText r)

/-! ### Generation requests (`src/services/geminiService.ts`) -/

/-- One entry of `contents.parts`: an inline image
(`{ inlineData: { mimeType, data } }`) or a text instruction. -/
inductive ReqPart where
  | inline (d : InlineData)
  | text (s : List Char)
deriving DecidableEq, Repr

/-- A request to `ai.models.generateContent`. -/
structure GenRequest where
  model : List Char
  parts : List ReqPart
deriving DecidableEq, Repr

/-- The inline images of a part list, in order. -/
def inlineImagesOf (parts : List ReqPart) : List InlineData :=
  parts.filterMap fun p =>
    match p with
    | .inline d => some d
    | .text _ => none

/-- The fixed model identifier `const model = 'gemini-2.5-flash-image'`. -/
def modelId : List Char := "gemini-2.5-flash-image".toList

/-- `dataUrlToPart` / the tail of `fileToPart`: decode a data URL (the
`FileReader` result, for a file) into an inline-image part. -/
def dataUrlToPart (dataUrl : List Char) : Option ReqPart :=
  (dataUrlToParts dataUrl).map fun pr => .inline ⟨pr.1, pr.2⟩

/-- The fixed try-on instruction of `generateVirtualTryOnImage`. -/
def tryOnPrompt : List Char :=
  ("Vous êtes une IA experte en essayage virtuel. Vous recevrez une 'image de mannequin' et une 'image de vêtement'. Votre tâche est de créer une nouvelle image photoréaliste où la personne de l' 'image de mannequin' porte le vêtement de l' 'image de vêtement'.\n\n**Règles cruciales :**\n1.  **Remplacement complet du vêtement :** Vous DEVEZ complètement RETIRER et REMPLACER le vêtement porté par la personne dans l' 'image de mannequin' par le nouveau vêtement. Aucune partie du vêtement d'origine (par exemple, cols, manches, motifs) ne doit être visible dans l'image finale.\n2.  **Préserver le mannequin :** Le visage, les cheveux, la silhouette et la pose de la personne de l' 'image de mannequin' DOIVENT rester inchangés.\n3.  **Préserver l'arrière-plan :** L'intégralité de l'arrière-plan de l' 'image de mannequin' DOIT être parfaitement préservée.\n4.  **Appliquer le vêtement :** Ajustez de manière réaliste le nouveau vêtement sur la personne. Il doit s'adapter à sa pose avec des plis, des ombres et un éclairage naturels, cohérents avec la scène originale.\n5.  **Sortie :** Retournez UNIQUEMENT l'image finale, éditée. N'incluez aucun texte.").toList

/-- `generateVirtualTryOnImage(modelImageUrl, garmentImage)`: decode the
model data URL, read and decode the garment file (modelled by the data
URL its `FileReader` yields), issue the single request whose parts are
`[modelImagePart, garmentImagePart, { text: prompt }]`, and classify the
response of the generative capability `api`.  `none` models a decode
failure thrown before any request is issued; otherwise the returned pair
carries the one request issued and the classified response. -/
def generateVirtualTryOnImage (modelImageUrl garmentDataUrl : List Char)
    (api : GenRequest → GenResponse) : Option (GenRequest × GenerationResult) :=
  match dataUrlToPart modelImageUrl with
  | none => none
  | some modelImagePart =>
    match dataUrlToPart garmentDataUrl with
    | none => none
    | some garmentImagePart =>
      let req : GenRequest :=
        ⟨modelId, [modelImagePart, garmentImagePart, .text tryOnPrompt]⟩
      some (req, handleApiResponse (api req))

/-! ### Crop transform (`src/components/Canvas.tsx`, `getCroppedImgDataUrl`)

Geometry is modelled over `ℚ` (the DOM reports integral `naturalWidth`
/ `width`, the crop rectangle may be fractional; the arithmetic the
code performs on them is exact on the inputs of interest).  Assigning a
number to `canvas.width` / `canvas.height` converts it by the WebIDL
`unsigned long` rule: truncate toward zero, then reduce modulo 2^32. -/

/-- Truncation toward zero of a rational (ECMAScript `ToIntegerOrInfinity`
on a finite number): floor for nonnegative values, ceiling for negative
ones. -/
def jsTruncate (q : ℚ) : ℤ :=
  if q < 0 then ⌈q⌉ else ⌊q⌋

/-- The WebIDL `unsigned long` conversion applied on assignment to
`canvas.width` / `canvas.height`: truncation toward zero, modulo 2^32. -/
def jsToUint32 (q : ℚ) : ℕ :=
  (jsTruncate q % (2 ^ 32 : ℤ)).toNat

/-- The relevant geometry of an `HTMLImageElement`: native size
(`naturalWidth`/`naturalHeight`) and rendered size (`width`/`height`). -/
structure ImgElement where
  naturalWidth : ℚ
  naturalHeight : ℚ
  width : ℚ
  height : ℚ
deriving DecidableEq, Repr

/-- A `Crop` rectangle in display pixels. -/
structure CropRect where
  x : ℚ
  y : ℚ
  width : ℚ
  height : ℚ
deriving DecidableEq, Repr

/-- The raster produced by `getCroppedImgDataUrl`: the canvas dimensions
actually allocated, the source rectangle handed to `drawImage`, and the
encoding parameters of `canvas.toDataURL('image/jpeg', 0.9)`. -/
structure CroppedRaster where
  width : ℕ
  height : ℕ
  srcX : ℚ
  srcY : ℚ
  srcW : ℚ
  srcH : ℚ
  mime : List Char
  quality : ℚ
deriving DecidableEq, Repr

/-- `getCroppedImgDataUrl(image, crop)`
(`src/components/Canvas.tsx:24-54`): compute
`scaleX = naturalWidth / width`, `scaleY = naturalHeight / height`;
return `null` when `crop.width` or `crop.height` is falsy; otherwise
allocate a canvas of `crop.width * scaleX` by `crop.height * scaleY`
(converted through the `unsigned long` attribute), draw the native-
resolution source rectangle into it and encode it as JPEG at
quality 0.9.  The 2D context is modelled as always available. -/
def getCroppedImgDataUrl (image : ImgElement) (crop : CropRect) :
    Option CroppedRaster :=
  let scaleX := image.naturalWidth / image.width
  let scaleY := image.naturalHeight / image.height
  if crop.width = 0 ∨ crop.height = 0 then none
  else
    some { width := jsToUint32 (crop.width * scaleX)
           height := jsToUint32 (crop.height * scaleY)
           srcX := crop.x * scaleX
           srcY := crop.y * scaleY
           srcW := crop.width * scaleX
           srcH := crop.height * scaleY
           mime := "image/jpeg".toList
           quality := 9 / 10 }

/-! ### Pose navigation (`src/components/Canvas.tsx`,
`handlePreviousPose` / `handleNextPose`) -/

/-- JavaScript `Array.prototype.indexOf` (strict equality, first
occurrence), with `none` in place of `-1`. -/
def jsIndexOf {α : Type} [DecidableEq α] (l : List α) (x : α) : Option ℕ :=
  match l with
  | [] => none
  | a :: rest => if a = x then some 0 else (jsIndexOf rest x).map (· + 1)

/-- `handlePreviousPose`: no-op while loading; otherwise take
`currentIndex = poseInstructions.indexOf(currentPoseInstruction)`, jump
to the end of the list when it is `-1`, else step to
`(currentIndex - 1 + length) % length`, and select
`poseInstructions[newIndex]` (`none` both for the loading no-op and for
the `undefined` selection on an empty list). -/
def handlePreviousPose (isLoading : Bool) (poseInstructions : List (List Char))
    (currentPoseInstruction : List Char) : Option (List Char) :=
  if isLoading then none
  else
    let len : ℤ := poseInstructions.length
    let newIndex : ℤ :=
      match jsIndexOf poseInstructions currentPoseInstruction with
      | none => len - 1
      | some i => ((i : ℤ) - 1 + len) % len
    poseInstructions.get? newIndex.toNat

/-- `handleNextPose`: as `handlePreviousPose`, but an absent current
instruction jumps to the beginning of the list and a listed one steps to
`(currentIndex + 1) % length`. -/
def handleNextPose (isLoading : Bool) (poseInstructions : List (List Char))
    (currentPoseInstruction : List Char) : Option (List Char) :=
  if isLoading then none
  else
    let len : ℤ := poseInstructions.length
    let newIndex : ℤ :=
      match jsIndexOf poseInstructions currentPoseInstruction with
      | none => 0
      | some i => ((i : ℤ) + 1) % len
    poseInstructions.get? newIndex.toNat

/-! ### A model of `JSON.parse` (used by `getFriendlyErrorMessage`)

A recursive-descent parser for the JSON value grammar (RFC 8259):
literals, numbers, strings with escapes, arrays and objects.  `none`
models a thrown `SyntaxError`.  Recursion is bounded by a fuel
parameter; `jsonParse` supplies fuel exceeding any possible nesting
depth, so the bound is never the reason a parse fails. -/

/-- Parsed JSON values. -/
inductive Json where
  | null
  | boolean (b : Bool)
  | num (q : ℚ)
  | str (s : List Char)
  | arr (elems : List Json)
  | obj (fields : List (List Char × Json))

/-- JSON insignificant whitespace. -/
def isJsonWs (c : Char) : Bool :=
  c = ' ' || c = '\t' || c = '\n' || c = '\r'

/-- The object braces, by code point. -/
def lbrace : Char := Char.ofNat 123

def rbrace : Char := Char.ofNat 125

/-- Decimal value of a hexadecimal digit. -/
def hexVal (c : Char) : Option ℕ :=
  if '0' ≤ c ∧ c ≤ '9' then some (c.toNat - '0'.toNat)
  else if 'a' ≤ c ∧ c ≤ 'f' then some (c.toNat - 'a'.toNat + 10)
  else if 'A' ≤ c ∧ c ≤ 'F' then some (c.toNat - 'A'.toNat + 10)
  else none

/-- Body of a JSON string literal after the opening quote: the decoded
characters and the remainder after the closing quote. -/
def parseJsonString : Nat → List Char → Option (List Char × List Char)
  | 0, _ => none
  | _ + 1, [] => none
  | n + 1, c :: rest =>
    if c = '"' then some ([], rest)
    else if c = '\\' then
      match rest with
      | [] => none
      | e :: rest2 =>
        let decoded : Option (Char × List Char) :=
          if e = '"' then some ('"', rest2)
          else if e = '\\' then some ('\\', rest2)
          else if e = '/' then some ('/', rest2)
          else if e = 'b' then some ('\x08', rest2)
          else if e = 'f' then some ('\x0c', rest2)
          else if e = 'n' then some ('\n', rest2)
          else if e = 'r' then some ('\r', rest2)
          else if e = 't' then some ('\t', rest2)
          else if e = 'u' then
            match rest2 with
            | h1 :: h2 :: h3 :: h4 :: rest3 =>
              match hexVal h1, hexVal h2, hexVal h3, hexVal h4 with
              | some v1, some v2, some v3, some v4 =>
                some (Char.ofNat (((v1 * 16 + v2) * 16 + v3) * 16 + v4), rest3)
              | _, _, _, _ => none
            | _ => none
          else none
        match decoded with
        | none => none
        | some (d, rest3) =>
          (parseJsonString n rest3).map fun pr => (d :: pr.1, pr.2)
    else if c.toNat < 32 then none
    else (parseJsonString n rest).map fun pr => (c :: pr.1, pr.2)

/-- A nonempty run of decimal digits, as a number and its length. -/
def parseDigits (s : List Char) : Option (ℕ × ℕ × List Char) :=
  let ds := s.takeWhile Char.isDigit
  if ds = [] then none
  else some (ds.foldl (fun acc c => acc * 10 + (c.toNat - '0'.toNat)) 0,
             ds.length, s.drop ds.length)

/-- A JSON number: optional minus, integer part, optional fraction,
optional exponent. -/
def parseJsonNumber (s : List Char) : Option (ℚ × List Char) :=
  let (neg, s1) : Bool × List Char :=
    match s with
    | '-' :: rest => (true, rest)
    | _ => (false, s)
  match parseDigits s1 with
  | none => none
  | some (ip, _, s2) =>
    let (frac, s3) : ℚ × List Char :=
      match s2 with
      | '.' :: rest =>
        match parseDigits rest with
        | some (fv, fl, s3) => ((fv : ℚ) / ((10 : ℚ) ^ fl), s3)
        | none => (0, s2)
      | _ => (0, s2)
    let (expo, s4) : ℤ × List Char :=
      match s3 with
      | e :: rest =>
        if e = 'e' ∨ e = 'E' then
          let (eneg, rest2) : Bool × List Char :=
            match rest with
            | '-' :: r => (true, r)
            | '+' :: r => (false, r)
            | _ => (false, rest)
          match parseDigits rest2 with
          | some (ev, _, s4) => (if eneg then -(ev : ℤ) else (ev : ℤ), s4)
          | none => (0, s3)
        else (0, s3)
      | [] => (0, s3)
    let mag : ℚ := ((ip : ℚ) + frac) * (10 : ℚ) ^ expo
    some (if neg then -mag else mag, s4)

mutual

/-- A JSON value, after leading whitespace. -/
def parseJsonValue : Nat → List Char → Option (Json × List Char)
  | 0, _ => none
  | n + 1, s =>
    let s := s.dropWhile isJsonWs
    match s with
    | [] => none
    | c :: rest =>
      if c = '"' then
        (parseJsonString (rest.length + 1) rest).map fun pr => (.str pr.1, pr.2)
      else if c = lbrace then
        let rest2 := rest.dropWhile isJsonWs
        match rest2 with
        | d :: rest3 =>
          if d = rbrace then some (.obj [], rest3)
          else
            (parseJsonMembers n rest2).map fun pr => (.obj pr.1, pr.2)
        | [] => none
      else if c = '[' then
        let rest2 := rest.dropWhile isJsonWs
        match rest2 with
        | ']' :: rest3 => some (.arr [], rest3)
        | _ => (parseJsonElements n rest2).map fun pr => (.arr pr.1, pr.2)
      else if "null".toList.isPrefixOf s then some (.null, s.drop 4)
      else if "true".toList.isPrefixOf s then some (.boolean true, s.drop 4)
      else if "false".toList.isPrefixOf s then some (.boolean false, s.drop 5)
      else if c = '-' ∨ c.isDigit then
        (parseJsonNumber s).map fun pr => (.num pr.1, pr.2)
      else none

/-- The members of a JSON object, up to and including the closing
brace. -/
def parseJsonMembers : Nat → List Char → Option (List (List Char × Json) × List Char)
  | 0, _ => none
  | n + 1, s =>
    let s := s.dropWhile isJsonWs
    match s with
    | '"' :: rest =>
      match parseJsonString (rest.length + 1) rest with
      | none => none
      | some (key, rest2) =>
        match rest2.dropWhile isJsonWs with
        | ':' :: rest3 =>
          match parseJsonValue n rest3 with
          | none => none
          | some (v, rest4) =>
            match rest4.dropWhile isJsonWs with
            | ',' :: rest5 =>
              (parseJsonMembers n rest5).map fun pr => ((key, v) :: pr.1, pr.2)
            | d :: rest5 =>
              if d = rbrace then some ([(key, v)], rest5) else none
            | [] => none
        | _ => none
    | _ => none

/-- The elements of a JSON array, up to and including the closing
bracket. -/
def parseJsonElements : Nat → List Char → Option (List Json × List Char)
  | 0, _ => none
  | n + 1, s =>
    match parseJsonValue n s with
    | none => none
    | some (v, rest) =>
      match rest.dropWhile isJsonWs with
      | ',' :: rest2 =>
        (parseJsonElements n rest2).map fun pr => (v :: pr.1, pr.2)
      | ']' :: rest2 => some ([v], rest2)
      | _ => none

end

/-- `JSON.parse(s)`: parse one JSON value; only trailing whitespace may
remain.  `none` models a thrown `SyntaxError`. -/
def jsonParse (s : List Char) : Option Json :=
  match parseJsonValue (s.length + 1) s with
  | none => none
  | some (v, rest) => if rest.dropWhile isJsonWs = [] then some v else none

/-- JavaScript property access `o?.[key]` on a parsed JSON value:
defined only on objects; with duplicate keys the last occurrence wins,
as in `JSON.parse`. -/
def jsonGet (j : Json) (key : List Char) : Option Json :=
  match j with
  | .obj fields => (fields.reverse.find? fun f => f.1 = key).map fun f => f.2
  | _ => none

/-! ### Error normalizer (`src/lib/utils.ts`, `getFriendlyErrorMessage`) -/

/-- The raw failure handed to `getFriendlyErrorMessage`, by the branch
of its stringification ladder: an `Error` instance (with its
`.message`), a string, any other truthy value (with its `String(...)`
rendering), or a falsy value. -/
inductive RawError where
  | errObj (message : List Char)
  | strVal (s : List Char)
  | otherTruthy (stringified : List Char)
  | falsy
deriving DecidableEq, Repr

/-- The `rawMessage` computed by the first lines of
`getFriendlyErrorMessage`. -/
def rawMessageOf : RawError → List Char
  | .errObj m => m
  | .strVal s => s
  | .otherTruthy s => s
  | .falsy => "Une erreur inconnue est survenue.".toList

/-- The marker substring `"Unsupported MIME type"`. -/
def unsupportedMarker : List Char := "Unsupported MIME type".toList

/-- The generic unsupported-format message returned when the marker is
present but no MIME type could be extracted. -/
def genericUnsupportedMsg : List Char :=
  "Format de fichier non pris en charge. Veuillez télécharger une image au format PNG, JPEG, ou WEBP.".toList

/-- The specific unsupported-format message naming the offending type. -/
def specificUnsupportedMsg (mimeType : List Char) : List Char :=
  "Le type de fichier '".toList ++ mimeType ++
    "' n'est pas pris en charge. Veuillez utiliser un format comme PNG, JPEG, ou WEBP.".toList

/-- `nestedMessage.split(': ')[1] || 'unsupported'`. -/
def extractMimeType (nestedMessage : List Char) : List Char :=
  match (splitOnSub ": ".toList nestedMessage).get? 1 with
  | some seg => if seg = [] then "unsupported".toList else seg
  | none => "unsupported".toList

/-- `getFriendlyErrorMessage(error, context)` (`src/lib/utils.ts:12-41`):
stringify the raw error; if the message contains
`"Unsupported MIME type"`, try `JSON.parse` on it and, when that yields
an object whose `error.message` is a string containing the marker,
return the specific message naming `nestedMessage.split(': ')[1]`;
when parsing fails or the nested message does not match, return the
generic unsupported-format message; without the marker return
`` `${context}. ${rawMessage}` ``. -/
def getFriendlyErrorMessage (error : RawError) (context : List Char) : List Char :=
  let rawMessage := rawMessageOf error
  if containsSub rawMessage unsupportedMarker then
    match jsonParse rawMessage with
    | some errorJson =>
      match (jsonGet errorJson "error".toList).bind (jsonGet · "message".toList) with
      | some (.str nestedMessage) =>
        if containsSub nestedMessage unsupportedMarker then
          specificUnsupportedMsg (extractMimeType nestedMessage)
        else genericUnsupportedMsg
      | _ => genericUnsupportedMsg
    | none => genericUnsupportedMsg
  else context ++ ". ".toList ++ rawMessage

/-! ### Spec-side predicate for the data-URL failure condition

§4.1 of the specification describes `decodeDataUrl` as failing when "no
MIME-type pattern (`:<type>;`) is found in the header segment".  The
predicate below formalises those words: somewhere in the string a `:` is
followed by a nonempty type token (free of `:` and `;`) and then a `;`. -/

/-- After the first character of a candidate type token: does a `;`
close the token before any further `:`? -/
def semiAfterToken : List Char → Bool
  | [] => false
  | c :: rest =>
    if c = ';' then true
    else if c = ':' then false
    else semiAfterToken rest

/-- Does `s` contain a substring of the shape `:<type>;` with `<type>`
nonempty (and free of `:` and `;`)? -/
def specHasMimePattern : List Char → Bool
  | [] => false
  | c :: rest =>
    (if c = ':' then
      match rest with
      | [] => false
      | d :: rest2 => if d = ';' ∨ d = ':' then false else semiAfterToken rest2
     else false) ||
    specHasMimePattern rest

/-- The header segment `arr[0]` that `dataUrlToParts` matches the
MIME-type pattern against. -/
def headerSegment (s : List Char) : List Char :=
  (jsSplit ',' s).headD []

/-! ### Helper lemmas -/

theorem jsSplit_ne_nil (sep : Char) (s : List Char) : jsSplit sep s ≠ [] := by
  induction s with
  | nil => simp [jsSplit]
  | cons c rest ih =>
    simp only [jsSplit]
    by_cases h : c = sep
    · simp [h]
    · simp only [h, if_false]
      cases hs : jsSplit sep rest with
      | nil => simp
      | cons g gs => simp

theorem jsSplit_length (sep : Char) (s : List Char) :
    (jsSplit sep s).length = s.count sep + 1 := by
  induction s with
  | nil => simp [jsSplit]
  | cons c rest ih =>
    simp only [jsSplit]
    by_cases h : c = sep
    · simp [h, List.count_cons, ih]
    · simp only [h, if_false]
      cases hs : jsSplit sep rest with
      | nil => exact absurd hs (jsSplit_ne_nil sep rest)
      | cons g gs =>
        rw [hs] at ih
        simp only [List.length_cons] at ih ⊢
        simp [List.count_cons, h, ih]

theorem jsSplit_of_not_mem {sep : Char} {s : List Char} (h : sep ∉ s) :
    jsSplit sep s = [s] := by
  induction s with
  | nil => simp [jsSplit]
  | cons c rest ih =>
    simp only [List.mem_cons, not_or] at h
    have hc : ¬ c = sep := fun hcs => h.1 hcs.symm
    simp [jsSplit, hc, ih h.2]

theorem jsSplit_append {sep : Char} {a : List Char} (b : List Char)
    (h : sep ∉ a) : jsSplit sep (a ++ sep :: b) = a :: jsSplit sep b := by
  induction a with
  | nil => simp [jsSplit]
  | cons c rest ih =>
    simp only [List.mem_cons, not_or] at h
    have hc : ¬ c = sep := fun hcs => h.1 hcs.symm
    simp only [List.cons_append, jsSplit, hc, if_false, List.append_eq]
    rw [ih h.2]

theorem mem_iff_jsSplit_two {sep : Char} {s : List Char} :
    sep ∈ s ↔ 2 ≤ (jsSplit sep s).length := by
  rw [jsSplit_length]
  constructor
  · intro h
    have := List.count_pos_iff.mpr h
    omega
  · intro h
    have : 0 < s.count sep := by omega
    exact List.count_pos_iff.mp this

theorem grabUntilSemi_append {m : List Char} (rest : List Char)
    (h1 : ';' ∉ m) (h2 : '\n' ∉ m) :
    grabUntilSemi (m ++ ';' :: rest) = some m := by
  induction m with
  | nil => simp [grabUntilSemi]
  | cons c cs ih =>
    simp only [List.mem_cons, not_or] at h1 h2
    have hc1 : ¬ c = ';' := fun hh => h1.1 hh.symm
    have hc2 : ¬ c = '\n' := fun hh => h2.1 hh.symm
    simp [grabUntilSemi, hc1, hc2, ih h1.2 h2.2]

theorem jsIndexOf_lt_length {α : Type} [DecidableEq α] {l : List α} {x : α}
    {i : ℕ} (h : jsIndexOf l x = some i) : i < l.length := by
  induction l generalizing i with
  | nil => simp [jsIndexOf] at h
  | cons a rest ih =>
    simp only [jsIndexOf] at h
    by_cases ha : a = x
    · simp only [ha, if_true] at h
      cases h
      simp
    · simp only [ha, if_false, Option.map_eq_some'] at h
      obtain ⟨j, hj, hji⟩ := h
      subst hji
      have := ih hj
      simp only [List.length_cons]
      omega

theorem get?_mem_of_lt {α : Type} {l : List α} {k : ℕ} (h : k < l.length) :
    ∃ p, l.get? k = some p ∧ p ∈ l :=
  ⟨l.get ⟨k, h⟩, List.get?_eq_get h, List.get_mem l k h⟩

/-! ### Claim theorems -/

/-- C1.  Response classification precedence: for every generation
response whose prompt feedback carries a block reason, `handleApiResponse`
yields the `Blocked` failure with that reason and the (possibly empty)
block-reason message — never `Success` — regardless of the rest of the
response, in particular even when an inline image part is present. -/
theorem c1_block_precedence (r : GenResponse) (pf : PromptFeedback)
    (br : List Char)
    (hpf : r.promptFeedback = some pf) (hbr : pf.blockReason = some br)
    (hne : br ≠ []) :
    handleApiResponse r = .Blocked br (pf.blockReasonMessage.getD []) ∧
    ∀ url, handleApiResponse r ≠ .Success url := by
  have hb : blockInfo r = some (br, pf.blockReasonMessage.getD []) := by
    simp [blockInfo, hpf, hbr, hne]
  constructor
  · simp [handleApiResponse, hb]
  · intro url
    simp [handleApiResponse, hb]

/-- Witness for C1: a concrete response carrying both a block reason and
an inline image part classifies as `Blocked`, not `Success`. -/
theorem c1_block_precedence_witness :
    ((⟨some ⟨some "SAFETY".toList, some "blocked".toList⟩,
        some [⟨some ⟨some [⟨some ⟨"image/png".toList, "QUJD".toList⟩⟩]⟩,
               some "STOP".toList⟩], none⟩ : GenResponse).promptFeedback =
        some ⟨some "SAFETY".toList, some "blocked".toList⟩ ∧
      (⟨some "SAFETY".toList, some "blocked".toList⟩ :
          PromptFeedback).blockReason = some "SAFETY".toList ∧
      "SAFETY".toList ≠ []) ∧
    handleApiResponse
        ⟨some ⟨some "SAFETY".toList, some "blocked".toList⟩,
         some [⟨some ⟨some [⟨some ⟨"image/png".toList, "QUJD".toList⟩⟩]⟩,
                some "STOP".toList⟩], none⟩ =
      .Blocked "SAFETY".toList "blocked".toList :=
  ⟨⟨rfl, rfl, by decide⟩,
   (c1_block_precedence _ _ _ rfl rfl (by decide)).1⟩

/-- C2.  For every response with no (truthy) block reason whose
candidate/part scan finds a first inline image part, `handleApiResponse`
returns `Success` of the literal concatenation
`data:<mimeType>;base64,<data>` built from exactly that part's pair. -/
theorem c2_success_data_url (r : GenResponse) (m d : List Char)
    (hb : blockInfo r = none)
    (hi : firstInlineImage (r.candidates.getD []) = some ⟨m, d⟩) :
    handleApiResponse r =
      .Success ("data:".toList ++ m ++ ";base64,".toList ++ d) := by
  simp [handleApiResponse, hb, hi, encodeDataUrl]

/-- A concrete two-candidate response used to witness C2: the first
candidate has only a non-image part; the first inline image in scan
order is the second part of the second candidate. -/
def c2Response : GenResponse :=
  ⟨none,
   some [⟨some ⟨some [⟨none⟩]⟩, none⟩,
         ⟨some ⟨some [⟨none⟩,
                      ⟨some ⟨"image/png".toList, "Rg==".toList⟩⟩,
                      ⟨some ⟨"image/jpeg".toList, "Wg==".toList⟩⟩]⟩,
          none⟩], none⟩

/-- Witness for C2: on `c2Response` the classifier returns the data URL
of the first inline image in scan order, not of the later one. -/
theorem c2_success_data_url_witness :
    (blockInfo c2Response = none ∧
      firstInlineImage (c2Response.candidates.getD []) =
        some ⟨"image/png".toList, "Rg==".toList⟩) ∧
    handleApiResponse c2Response =
      .Success "data:image/png;base64,Rg==".toList :=
  ⟨⟨by decide, by decide⟩, by
    have h := c2_success_data_url c2Response "image/png".toList "Rg==".toList
      (by decide) (by decide)
    rw [h]
    rfl⟩

/-- C3.  For every response with no (truthy) block reason and no inline
image part in any candidate, whose first candidate's finish reason is
present, nonempty and not the literal `"STOP"`, `handleApiResponse`
yields `AbnormalStop` carrying that reason; the finish reasons of later
candidates (arbitrary here) are not consulted. -/
theorem c3_abnormal_stop (r : GenResponse) (c0 : Candidate)
    (cs : List Candidate) (fr : List Char)
    (hb : blockInfo r = none)
    (hc : r.candidates = some (c0 :: cs))
    (hi : firstInlineImage (c0 :: cs) = none)
    (hf : c0.finishReason = some fr)
    (hne : fr ≠ []) (hstop : fr ≠ "STOP".toList) :
    handleApiResponse r = .AbnormalStop fr := by
  have hstop' : fr ≠ ['S', 'T', 'O', 'P'] := hstop
  simp [handleApiResponse, hb, hc, hi, hf, hne, hstop']

/-- Witness for C3: a concrete imageless response whose first candidate
finished with `"SAFETY"` classifies as `AbnormalStop("SAFETY")`, even
though a later candidate finished with `"STOP"`. -/
theorem c3_abnormal_stop_witness :
    (blockInfo ⟨some ⟨none, none⟩,
        some [⟨none, some "SAFETY".toList⟩, ⟨none, some "STOP".toList⟩],
        some "refused".toList⟩ = none ∧
      (⟨some ⟨none, none⟩,
        some [⟨none, some "SAFETY".toList⟩, ⟨none, some "STOP".toList⟩],
        some "refused".toList⟩ : GenResponse).candidates =
        some [⟨none, some "SAFETY".toList⟩, ⟨none, some "STOP".toList⟩] ∧
      firstInlineImage
        [⟨none, some "SAFETY".toList⟩, ⟨none, some "STOP".toList⟩] = none ∧
      (⟨none, some "SAFETY".toList⟩ : Candidate).finishReason =
        some "SAFETY".toList ∧
      "SAFETY".toList ≠ [] ∧ "SAFETY".toList ≠ "STOP".toList) ∧
    handleApiResponse ⟨some ⟨none, none⟩,
        some [⟨none, some "SAFETY".toList⟩, ⟨none, some "STOP".toList⟩],
        some "refused".toList⟩ =
      .AbnormalStop "SAFETY".toList :=
  ⟨⟨by decide, rfl, by decide, rfl, by decide, by decide⟩,
   c3_abnormal_stop _ _ _ _ (by decide) rfl (by decide) rfl
     (by decide) (by decide)⟩

/-- C4.  For every data URL of the form `data:<mime>;base64,<payload>`
(with `<mime>` a nonempty MIME token — free of `,`, `;` and newlines —
and `<payload>` comma-free, as base64 payloads are), `dataUrlToParts`
yields exactly the pair `(mime, payload)`, and re-encoding that pair
through the `data:<mimeType>;base64,<data>` template reconstructs the
original URL. -/
theorem c4_roundtrip (mime payload : List Char)
    (hne : mime ≠ []) (hm1 : ',' ∉ mime) (hm2 : ';' ∉ mime)
    (hm3 : '\n' ∉ mime) (hp : ',' ∉ payload) :
    dataUrlToParts (encodeDataUrl mime payload) = some (mime, payload) ∧
    ∃ pr, dataUrlToParts (encodeDataUrl mime payload) = some pr ∧
      encodeDataUrl pr.1 pr.2 = encodeDataUrl mime payload := by
  have hdecode :
      dataUrlToParts (encodeDataUrl mime payload) = some (mime, payload) := by
    have hshape : encodeDataUrl mime payload =
        (['d', 'a', 't', 'a', ':'] ++ mime ++ [';', 'b', 'a', 's', 'e', '6', '4'])
          ++ ',' :: payload := by
      simp [encodeDataUrl]
    have hhead : ',' ∉
        ['d', 'a', 't', 'a', ':'] ++ mime ++ [';', 'b', 'a', 's', 'e', '6', '4'] := by
      intro hmem
      rcases List.mem_append.mp hmem with hmem | hmem
      · rcases List.mem_append.mp hmem with hmem | hmem
        · simp at hmem
        · exact hm1 hmem
      · simp at hmem
    have hsplit :
        jsSplit ',' (encodeDataUrl mime payload) =
          (['d', 'a', 't', 'a', ':'] ++ mime ++ [';', 'b', 'a', 's', 'e', '6', '4'])
            :: [payload] := by
      rw [hshape, jsSplit_append _ hhead, jsSplit_of_not_mem hp]
    have hgrab :
        grabUntilSemi (mime ++ [';', 'b', 'a', 's', 'e', '6', '4']) = some mime := by
      have : mime ++ [';', 'b', 'a', 's', 'e', '6', '4'] =
          mime ++ ';' :: ['b', 'a', 's', 'e', '6', '4'] := by simp
      rw [this, grabUntilSemi_append _ hm2 hm3]
    have hfind :
        findMime ('d' :: 'a' :: 't' :: 'a' :: ':' ::
            (mime ++ [';', 'b', 'a', 's', 'e', '6', '4'])) = some mime := by
      simp [findMime, hgrab]
    simp [dataUrlToParts, hsplit, hfind, hne]
  exact ⟨hdecode, ⟨(mime, payload), hdecode, rfl⟩⟩

/-- Witness for C4 at `mime = "image/png"`, `payload = "QUJD"`. -/
theorem c4_roundtrip_witness :
    (("image/png".toList : List Char) ≠ [] ∧
      ',' ∉ "image/png".toList ∧ ';' ∉ "image/png".toList ∧
      '\n' ∉ "image/png".toList ∧ ',' ∉ "QUJD".toList) ∧
    dataUrlToParts (encodeDataUrl "image/png".toList "QUJD".toList) =
      some ("image/png".toList, "QUJD".toList) :=
  ⟨⟨by decide, by decide, by decide, by decide, by decide⟩,
   (c4_roundtrip "image/png".toList "QUJD".toList
      (by decide) (by decide) (by decide) (by decide) (by decide)).1⟩

/-- Counterexample to C5 as stated.  On the input `"data:;x:ok;,p"` the
decoder fails (the first regex match `:;` captures the empty string and
the source rejects a falsy capture), although the input does contain a
comma and its header segment does contain a MIME-type pattern of the
shape `:<type>;` with a nonempty type (`:ok;`): the claimed "exactly
when" equivalence is false. -/
theorem c5_counterexample :
    dataUrlToParts "data:;x:ok;,p".toList = none ∧
    (',' ∈ "data:;x:ok;,p".toList) ∧
    specHasMimePattern (headerSegment "data:;x:ok;,p".toList) = true := by
  refine ⟨by decide, by decide, by decide⟩

/-- C5, amended.  `dataUrlToParts` fails exactly when the input contains
no comma, or the *first* match of the lazy pattern `:(.*?);` in the
header segment (the leftmost `:` from which a `;` is reachable without
an intervening newline, capturing minimally) is absent or captures the
empty string; in every failure case no pair is produced. -/
theorem c5_amended_failure_condition (s : List Char) :
    dataUrlToParts s = none ↔
      (',' ∉ s ∨ findMime (headerSegment s) = none ∨
        findMime (headerSegment s) = some []) := by
  unfold dataUrlToParts headerSegment
  cases harr : jsSplit ',' s with
  | nil => exact absurd harr (jsSplit_ne_nil ',' s)
  | cons a0 tail =>
    cases tail with
    | nil =>
      have hmem : ',' ∉ s := by
        intro hmem
        have := mem_iff_jsSplit_two.mp hmem
        rw [harr] at this
        simp at this
      simp [hmem]

    | cons a1 rest =>
      have hmem : ',' ∈ s := by
        apply mem_iff_jsSplit_two.mpr
        rw [harr]
        simp
      simp only [List.headD_cons]
      cases hfm : findMime a0 with
      | none => simp [hmem]
      | some t =>
        cases t with
        | nil => simp [hmem]
        | cons c cs => simp [hmem]

/-- C6.  Whenever both data URLs decode, the garment-application
operation issues exactly the one request it returns, and that request's
inline-image parts are, in order, the model image followed by the
garment image (the model part strictly precedes the garment part, with
the instruction text after both). -/
theorem c6_tryon_request_order (modelImageUrl garmentDataUrl : List Char)
    (api : GenRequest → GenResponse) (m g : List Char × List Char)
    (hm : dataUrlToParts modelImageUrl = some m)
    (hg : dataUrlToParts garmentDataUrl = some g) :
    generateVirtualTryOnImage modelImageUrl garmentDataUrl api =
      some (⟨modelId,
             [.inline ⟨m.1, m.2⟩, .inline ⟨g.1, g.2⟩, .text tryOnPrompt]⟩,
            handleApiResponse (api ⟨modelId,
              [.inline ⟨m.1, m.2⟩, .inline ⟨g.1, g.2⟩, .text tryOnPrompt]⟩)) ∧
    inlineImagesOf [.inline ⟨m.1, m.2⟩, .inline ⟨g.1, g.2⟩, .text tryOnPrompt] =
      [⟨m.1, m.2⟩, ⟨g.1, g.2⟩] := by
  constructor
  · simp [generateVirtualTryOnImage, dataUrlToPart, hm, hg]
  · simp [inlineImagesOf]

/-- The generative capability used by the C6 witness: its response is
irrelevant to the request shape. -/
def c6Api : GenRequest → GenResponse := fun _ => ⟨none, none, none⟩

/-- The request the C6 witness expects `generateVirtualTryOnImage` to
issue: model image first, garment image second, prompt text last. -/
def c6Request : GenRequest :=
  ⟨modelId,
   [.inline ⟨"image/png".toList, "QUJD".toList⟩,
    .inline ⟨"image/jpeg".toList, "R0lG".toList⟩,
    .text tryOnPrompt]⟩

/-- Witness for C6 at concrete model and garment data URLs. -/
theorem c6_tryon_request_order_witness :
    (dataUrlToParts "data:image/png;base64,QUJD".toList =
        some ("image/png".toList, "QUJD".toList) ∧
      dataUrlToParts "data:image/jpeg;base64,R0lG".toList =
        some ("image/jpeg".toList, "R0lG".toList)) ∧
    (generateVirtualTryOnImage "data:image/png;base64,QUJD".toList
        "data:image/jpeg;base64,R0lG".toList c6Api =
        some (c6Request, handleApiResponse (c6Api c6Request)) ∧
      inlineImagesOf c6Request.parts =
        [⟨"image/png".toList, "QUJD".toList⟩,
         ⟨"image/jpeg".toList, "R0lG".toList⟩]) :=
  ⟨⟨by decide, by decide⟩,
   c6_tryon_request_order "data:image/png;base64,QUJD".toList
     "data:image/jpeg;base64,R0lG".toList c6Api
     ("image/png".toList, "QUJD".toList) ("image/jpeg".toList, "R0lG".toList)
     (by decide) (by decide)⟩

/-- `jsToUint32` is the floor for nonnegative rationals below 2^32. -/
theorem jsToUint32_eq_floor (q : ℚ) (h0 : 0 ≤ q) (hlt : q < 2 ^ 32) :
    (jsToUint32 q : ℤ) = ⌊q⌋ := by
  unfold jsToUint32 jsTruncate
  rw [if_neg (not_lt.mpr h0)]
  have hge : 0 ≤ ⌊q⌋ := Int.floor_nonneg.mpr h0
  have hlt' : ⌊q⌋ < 2 ^ 32 := Int.floor_lt.mpr (by exact_mod_cast hlt)
  rw [Int.emod_eq_of_lt hge hlt']
  exact Int.toNat_of_nonneg hge

/-- The image element of the C7 counterexample: native 3×3, rendered
2×2, so `scaleX = scaleY = 3/2`. -/
def c7Image : ImgElement := ⟨3, 3, 2, 2⟩

/-- The 1×1 crop of the C7 counterexample: `1 * (3/2) = 1.5` is
truncated to 1 by the canvas, while `round` gives 2. -/
def c7Crop : CropRect := ⟨0, 0, 1, 1⟩

/-- A zero-width crop, for the absent case of C7. -/
def c7CropZero : CropRect := ⟨0, 0, 0, 1⟩

/-- Counterexample to C7 as stated: on a 3×3 image rendered at 2×2 with
a 1×1 crop, the produced raster is 1 pixel wide, but
`round(crop.width * scaleX) = round(1.5) = 2`: the canvas truncates,
it does not round. -/
theorem c7_counterexample :
    (getCroppedImgDataUrl c7Image c7Crop).map CroppedRaster.width = some 1 ∧
    round (c7Crop.width * (c7Image.naturalWidth / c7Image.width)) = 2 ∧
    (1 : ℤ) ≠ 2 := by
  have hq : c7Crop.width * (c7Image.naturalWidth / c7Image.width) =
      (3 / 2 : ℚ) := by norm_num [c7Image, c7Crop]
  refine ⟨?_, ?_, by decide⟩
  · have h2 : ⌊(3 / 2 : ℚ)⌋ = 1 := by
      rw [Int.floor_eq_iff]
      norm_num
    have hneg : ¬ ((3 / 2 : ℚ) < 0) := by norm_num
    have h1 : ((1 : ℚ) * (3 / 2)) = 3 / 2 := by norm_num
    simp [getCroppedImgDataUrl, jsToUint32, jsTruncate, c7Image, c7Crop,
      h1, h2, hneg]
  · rw [hq, round_eq]
    have h3 : (3 / 2 : ℚ) + 1 / 2 = ((2 : ℤ) : ℚ) := by norm_num
    rw [h3, Int.floor_intCast]

/-- C7, amended.  `getCroppedImgDataUrl` returns absent when the crop
width or height is zero; and for nonzero crops (with nonnegative
geometry and scaled dimensions below 2^32), the raster dimensions are
the *floor* — the canvas `unsigned long` truncation, not the round — of
`crop.width * scaleX` and `crop.height * scaleY` with
`scaleX = naturalWidth / width`, `scaleY = naturalHeight / height`. -/
theorem c7_amended_floor_dims :
    (∀ (image : ImgElement) (crop : CropRect),
        crop.width = 0 ∨ crop.height = 0 →
        getCroppedImgDataUrl image crop = none) ∧
    (∀ (image : ImgElement) (crop : CropRect),
        crop.width ≠ 0 → crop.height ≠ 0 →
        0 ≤ crop.width * (image.naturalWidth / image.width) →
        0 ≤ crop.height * (image.naturalHeight / image.height) →
        crop.width * (image.naturalWidth / image.width) < 2 ^ 32 →
        crop.height * (image.naturalHeight / image.height) < 2 ^ 32 →
        (getCroppedImgDataUrl image crop).map
            (fun r => ((r.width : ℤ), (r.height : ℤ))) =
          some (⌊crop.width * (image.naturalWidth / image.width)⌋,
                ⌊crop.height * (image.naturalHeight / image.height)⌋)) := by
  constructor
  · intro image crop h
    simp [getCroppedImgDataUrl, h]
  · intro image crop hw hh h0w h0h hltw hlth
    have hcond : ¬ (crop.width = 0 ∨ crop.height = 0) := by
      push_neg
      exact ⟨hw, hh⟩
    simp only [getCroppedImgDataUrl, if_neg hcond, Option.map_some']
    exact congrArg some (Prod.ext
      (jsToUint32_eq_floor _ h0w hltw) (jsToUint32_eq_floor _ h0h hlth))

/-- Witness for C7's amended statement: the zero-width crop yields
absent, and the 1×1 crop on the 3×3-native / 2×2-rendered image yields
a raster of floor(1.5) × floor(1.5) = 1 × 1. -/
theorem c7_amended_floor_dims_witness :
    ((c7CropZero.width = 0 ∨ c7CropZero.height = 0) ∧
      getCroppedImgDataUrl c7Image c7CropZero = none) ∧
    ((c7Crop.width ≠ 0 ∧ c7Crop.height ≠ 0 ∧
        0 ≤ c7Crop.width * (c7Image.naturalWidth / c7Image.width) ∧
        0 ≤ c7Crop.height * (c7Image.naturalHeight / c7Image.height) ∧
        c7Crop.width * (c7Image.naturalWidth / c7Image.width) < 2 ^ 32 ∧
        c7Crop.height * (c7Image.naturalHeight / c7Image.height) < 2 ^ 32) ∧
      (getCroppedImgDataUrl c7Image c7Crop).map
          (fun r => ((r.width : ℤ), (r.height : ℤ))) =
        some (⌊c7Crop.width * (c7Image.naturalWidth / c7Image.width)⌋,
              ⌊c7Crop.height * (c7Image.naturalHeight / c7Image.height)⌋)) :=
  ⟨⟨Or.inl (by norm_num [c7CropZero]),
    c7_amended_floor_dims.1 c7Image c7CropZero
      (Or.inl (by norm_num [c7CropZero]))⟩,
   ⟨⟨by norm_num [c7Crop], by norm_num [c7Crop],
     by norm_num [c7Crop, c7Image], by norm_num [c7Crop, c7Image],
     by norm_num [c7Crop, c7Image], by norm_num [c7Crop, c7Image]⟩,
    c7_amended_floor_dims.2 c7Image c7Crop
      (by norm_num [c7Crop]) (by norm_num [c7Crop])
      (by norm_num [c7Crop, c7Image]) (by norm_num [c7Crop, c7Image])
      (by norm_num [c7Crop, c7Image]) (by norm_num [c7Crop, c7Image])⟩⟩

/-- The plain (non-JSON) raw message of C8. -/
def plainUnsupported : List Char := "Unsupported MIME type: image/x-foo".toList

/-- The JSON-wrapped raw message of C8's companion test case. -/
def jsonUnsupported : List Char :=
  "\x7b\"error\":\x7b\"message\":\"Unsupported MIME type: image/bmp\"\x7d\x7d".toList

/-- Counterexample to C8 as stated: when the raw message is exactly the
plain string `Unsupported MIME type: image/x-foo`, `JSON.parse` throws,
the catch branch falls through, and the normalizer returns the *generic*
unsupported-format message — which does not contain `image/x-foo`. -/
theorem c8_counterexample :
    getFriendlyErrorMessage (.errObj plainUnsupported) "Ctx".toList =
      genericUnsupportedMsg ∧
    containsSub (getFriendlyErrorMessage (.errObj plainUnsupported) "Ctx".toList)
      "image/x-foo".toList = false := by
  exact ⟨by decide, by decide⟩

/-- C8, amended.  For every context, a raw error whose message is
exactly the plain string `Unsupported MIME type: image/x-foo` normalizes
to the generic unsupported-format message (naming no type); the
offending type is extracted only from a JSON-wrapped message — on the
raw message `{"error":{"message":"Unsupported MIME type: image/bmp"}}`
the result does contain `image/bmp`. -/
theorem c8_amended_mime_extraction (context : List Char) :
    getFriendlyErrorMessage (.errObj plainUnsupported) context =
      genericUnsupportedMsg ∧
    containsSub (getFriendlyErrorMessage (.errObj jsonUnsupported) context)
      "image/bmp".toList = true := by
  exact ⟨rfl, rfl⟩

/-- C9.  Pose navigation over a three-element pose list `[A, B, C]`
(with `A ≠ B`, so that `B` is found at index 1): from selection `B`,
"next" selects `C`; from a free-text selection `f` not in the list,
"next" selects the first listed pose `A` and "previous" selects the last
listed pose `C`. -/
theorem c9_pose_navigation (A B C f : List Char)
    (hAB : A ≠ B) (hfA : f ≠ A) (hfB : f ≠ B) (hfC : f ≠ C) :
    handleNextPose false [A, B, C] B = some C ∧
    handleNextPose false [A, B, C] f = some A ∧
    handlePreviousPose false [A, B, C] f = some C := by
  have hiB : jsIndexOf [A, B, C] B = some 1 := by
    simp [jsIndexOf, hAB]
  have hif : jsIndexOf [A, B, C] f = none := by
    simp [jsIndexOf, Ne.symm hfA, Ne.symm hfB, Ne.symm hfC]
  refine ⟨?_, ?_, ?_⟩
  · simp only [handleNextPose]
    rw [hiB]
    rfl
  · simp only [handleNextPose]
    rw [hif]
    rfl
  · simp only [handlePreviousPose]
    rw [hif]
    rfl

/-- Witness for C9 on the concrete list `["a", "b", "c"]` with free
text `"z"`. -/
theorem c9_pose_navigation_witness :
    (("a".toList : List Char) ≠ "b".toList ∧
      ("z".toList : List Char) ≠ "a".toList ∧
      ("z".toList : List Char) ≠ "b".toList ∧
      ("z".toList : List Char) ≠ "c".toList) ∧
    (handleNextPose false ["a".toList, "b".toList, "c".toList] "b".toList =
        some "c".toList ∧
      handleNextPose false ["a".toList, "b".toList, "c".toList] "z".toList =
        some "a".toList ∧
      handlePreviousPose false ["a".toList, "b".toList, "c".toList] "z".toList =
        some "c".toList) :=
  ⟨⟨by decide, by decide, by decide, by decide⟩,
   c9_pose_navigation "a".toList "b".toList "c".toList "z".toList
     (by decide) (by decide) (by decide) (by decide)⟩

/-- C10.  Navigation closure: for every nonempty pose list and every
current selection (listed or free text), both "previous" and "next"
select some element of the pose list — navigation never produces a
string outside the list. -/
theorem c10_navigation_closure (poses : List (List Char)) (current : List Char)
    (hne : poses ≠ []) :
    (∃ p, handleNextPose false poses current = some p ∧ p ∈ poses) ∧
    (∃ q, handlePreviousPose false poses current = some q ∧ q ∈ poses) := by
  have hlen : 0 < poses.length := List.length_pos.mpr hne
  have hlenZ : (0 : ℤ) < (poses.length : ℤ) := by exact_mod_cast hlen
  constructor
  · cases hidx : jsIndexOf poses current with
    | none =>
      simp only [handleNextPose, hidx, Bool.false_eq_true, if_false]
      exact get?_mem_of_lt (by simpa using hlen)
    | some i =>
      simp only [handleNextPose, hidx, Bool.false_eq_true, if_false]
      refine get?_mem_of_lt ?_
      have h1 : 0 ≤ ((i : ℤ) + 1) % (poses.length : ℤ) :=
        Int.emod_nonneg _ (ne_of_gt hlenZ)
      have h2 : ((i : ℤ) + 1) % (poses.length : ℤ) < (poses.length : ℤ) :=
        Int.emod_lt_of_pos _ hlenZ
      omega
  · cases hidx : jsIndexOf poses current with
    | none =>
      simp only [handlePreviousPose, hidx, Bool.false_eq_true, if_false]
      refine get?_mem_of_lt ?_
      omega
    | some i =>
      simp only [handlePreviousPose, hidx, Bool.false_eq_true, if_false]
      refine get?_mem_of_lt ?_
      have h1 : 0 ≤ ((i : ℤ) - 1 + (poses.length : ℤ)) % (poses.length : ℤ) :=
        Int.emod_nonneg _ (ne_of_gt hlenZ)
      have h2 : ((i : ℤ) - 1 + (poses.length : ℤ)) % (poses.length : ℤ) <
          (poses.length : ℤ) :=
        Int.emod_lt_of_pos _ hlenZ
      omega

/-- Witness for C10 on the one-element pose list `["a"]` with the
free-text selection `"z"`. -/
theorem c10_navigation_closure_witness :
    (["a".toList] : List (List Char)) ≠ [] ∧
    ((∃ p, handleNextPose false ["a".toList] "z".toList = some p ∧
        p ∈ ["a".toList]) ∧
      (∃ q, handlePreviousPose false ["a".toList] "z".toList = some q ∧
        q ∈ ["a".toList])) :=
  ⟨by decide, c10_navigation_closure ["a".toList] "z".toList (by decide)⟩

end Essayage
